import Mathlib

/-
  Verification development for the RPC runtime core in `src/system.rs`
  (lavish-rs). The stateful parts (the `Queue` guarded by the mutex, the
  outbound sink, the per-call completion channels) are embedded by explicit
  state passing plus event traces: each operation returns its new `Queue`
  together with the list of channel operations it performed, in order.
  Machine integers (the u32 request-id counter) are `Nat` with explicit
  `% 2 ^ 32` at the one point where overflow matters.
-/

namespace Lavish

/-- Modelled from the spec: the `Error` enum lives outside `src/` (it is
imported from `super`); its kinds are listed in spec section 7. Only the
constructors used by `system.rs` matter to the claims. -/
inductive Error where
  | TransportError (s : String)
  | RemoteError (s : String)
  | WrongResults
  | MissingResults
  | WrongMessageType
  | LockPoisoned
  | ChannelBroken
  deriving DecidableEq, Repr

/-- Modelled from the spec: the `Message` enum lives outside `src/`; its
three variants and their fields are pinned by the spec's data model and by
every pattern match in `system.rs`. Ids are u32, kept as `Nat`. -/
inductive Message (P NP R : Type) where
  | Request (id : Nat) (params : P)
  | Response (id : Nat) (results : Option R) (error : Option String)
  | Notification (params : NP)
  deriving DecidableEq, Repr

/-- An in-flight request entry: the method name kept for diagnostics and
the sending end of the caller's one-shot completion channel. Channels are
identified by a `Nat` in this embedding; what a send on a channel does is
recorded in the event trace. -/
structure InFlightRequest where
  method : String
  tx : Nat
  deriving DecidableEq, Repr

/-- Width of the u32 request-id counter. -/
def u32Mod : Nat := 2 ^ 32

/-- The table of in-flight requests (`HashMap<u32, InFlightRequest>` in the
source), embedded as an association list with unique keys. -/
abbrev Table : Type := List (Nat × InFlightRequest)

/-- `HashMap::get`: the value stored under `k`, if any. -/
def findEntry : Table → Nat → Option InFlightRequest
  | [], _ => none
  | (k', v) :: rest, k => if k' = k then some v else findEntry rest k

/-- `HashMap::remove`: drop the binding of `k` (the first one, which is the
only one while keys are unique). -/
def removeEntry : Table → Nat → Table
  | [], _ => []
  | (k', v) :: rest, k =>
      if k' = k then rest else (k', v) :: removeEntry rest k

/-- `HashMap::insert`: bind `k` to `v`, replacing any previous binding. -/
def insertEntry (t : Table) (k : Nat) (v : InFlightRequest) : Table :=
  (k, v) :: removeEntry t k

/-- The mutex-guarded shared state: the next request id (a u32 counter) and
the in-flight table (`Queue` in the source). -/
structure Queue where
  id : Nat
  in_flight_requests : Table
  deriving DecidableEq, Repr

/-- `Queue::new`: counter at 0, empty table. -/
def Queue.new : Queue :=
  { id := 0, in_flight_requests := [] }

/-- `Queue::next_id`: return the current counter value, then increment it,
wrapping per the u32 width. Returns the allocated id and the new state. -/
def Queue.next_id (q : Queue) : Nat × Queue :=
  (q.id, { q with id := (q.id + 1) % u32Mod })

/-- `n` successive `next_id` calls: the list of ids handed out and the
final state. -/
def next_ids : Nat → Queue → List Nat × Queue
  | 0, q => ([], q)
  | n + 1, q =>
      let (i, q') := q.next_id
      let (is, q'') := next_ids n q'
      (i :: is, q'')

/-- `PendingRequests::get_pending` for `Queue`: the method name of the
outstanding call with this id, if any. -/
def Queue.get_pending (q : Queue) (id : Nat) : Option String :=
  (findEntry q.in_flight_requests id).map (fun req => req.method)

/-- One step performed by `Client::call_raw`, in trace order: allocating an
id from the queue, registering the in-flight entry under an id, or sending
a message on the outbound sink. -/
inductive Event (P NP R : Type) where
  | allocId (id : Nat)
  | register (id : Nat)
  | send (m : Message P NP R)
  deriving DecidableEq, Repr

/-- What `Client::call_raw` has done by the time it blocks on `rx.recv()`:
the new queue state, the ordered trace of its steps, and the identifier of
the fresh completion channel it will block on. -/
structure CallRawResult (P NP R : Type) where
  queue : Queue
  events : List (Event P NP R)
  rxChan : Nat
  deriving Repr

namespace Client

/-- Shallow embedding of `Client::call_raw`, up to the blocking
`rx.recv()` (whose result is external input: whatever `handle_message`
later delivers on `rxChan`). `method` embeds `Atom::method` for `P`;
`freshChan` is the identifier of the newly created mpsc channel. The
source locks the queue to run `next_id`, builds the `Request`, locks again
to insert the `InFlightRequest`, and only then sends on the sink. -/
def call_raw (P NP R : Type) (method : P → String) (freshChan : Nat)
    (q : Queue) (params : P) : CallRawResult P NP R :=
  let id := q.id
  let q1 := (Queue.next_id q).2
  let m : Message P NP R := .Request id params
  let in_flight : InFlightRequest := { method := method params, tx := freshChan }
  let q2 : Queue :=
    { q1 with in_flight_requests := insertEntry q1.in_flight_requests id in_flight }
  { queue := q2
    events := [.allocId id, .register id, .send m]
    rxChan := freshChan }

/-- Shallow embedding of `Client::call`: the pure processing `call` applies
to the outcome of `call_raw` (`raw` is that outcome: the `Message` received
on the completion channel, or the error `call_raw` returned). `fmtErr`
embeds the external alternate Debug formatting of `Error`
(the source's `format!` with the pretty debug specifier). -/
def call (P NP R RR : Type) (fmtErr : Error → String)
    (downgrade : R → Option RR) (raw : Except Error (Message P NP R)) :
    Except Error RR :=
  match raw with
  | .ok m =>
    match m with
    | .Response _ results error =>
      match error with
      | some error => .error (.RemoteError error)
      | none =>
        match results with
        | some results =>
          match downgrade results with
          | some rr => .ok rr
          | none => .error .WrongResults
        | none => .error .MissingResults
    | _ => .error .WrongMessageType
  | .error msg => .error (.TransportError (fmtErr msg))

end Client

/-- One channel operation performed by `handle_message`: enqueueing a
message on the outbound sink (`client.sink.send`), or delivering a message
on an in-flight entry's completion channel (`in_flight.tx.send`). -/
inductive OutEvent (P NP R : Type) where
  | sinkSend (m : Message P NP R)
  | deliver (chan : Nat) (m : Message P NP R)
  deriving DecidableEq, Repr

/-- How a `handle_message` dispatch worker finishes: returning `Ok(())`,
returning `Err(e)`, or dying in a panic (an `unwrap` on a failed channel
send, or the `unimplemented` arm). -/
inductive Outcome where
  | ok
  | err (e : Error)
  | panicked (msg : String)
  deriving DecidableEq, Repr

/-- The result of one `handle_message` dispatch: the queue state after it,
the ordered trace of channel operations it attempted, and how it finished. -/
structure DispatchResult (P NP R : Type) where
  queue : Queue
  events : List (OutEvent P NP R)
  outcome : Outcome

/-- Shallow embedding of `handle_message`. The handler is a state
transformer on the shared `Queue` (any effect it has comes from nested
calls through the `Client` it is given) returning `Result<R, Error>`.
`sinkAlive` says whether the outbound sink's receiver still exists and
`chanAlive` which completion channels still have their receiver: a send
on a dead channel fails, and the source unwraps both sends, so failure
panics the worker. -/
def handle_message (P NP R : Type)
    (handler : Queue → P → Queue × Except Error R) (fmtErr : Error → String)
    (sinkAlive : Bool) (chanAlive : Nat → Bool)
    (q : Queue) (inbound : Message P NP R) : DispatchResult P NP R :=
  match inbound with
  | .Request id params =>
    let hr := handler q params
    let m : Message P NP R :=
      match hr.2 with
      | .ok results => .Response id (some results) none
      | .error error => .Response id none (some ("internal error: " ++ fmtErr error))
    { queue := hr.1
      events := [.sinkSend m]
      outcome := if sinkAlive then .ok else .panicked "sink send failed" }
  | .Response id results error =>
    match findEntry q.in_flight_requests id with
    | some in_flight =>
      { queue := { q with in_flight_requests := removeEntry q.in_flight_requests id }
        events := [.deliver in_flight.tx (.Response id results error)]
        outcome :=
          if chanAlive in_flight.tx then .ok
          else .panicked "completion channel send failed" }
    | none => { queue := q, events := [], outcome := .ok }
  | .Notification _ => { queue := q, events := [], outcome := .panicked "not implemented" }

/-- Shallow embedding of `Runtime::join`. `msgs` is the sequence of
completion results available on the error channel, in arrival order (the
payload type of a failure is the boxed panic value, kept abstract as `E`).
`join` receives twice, logging but not returning after the first result;
with fewer than two results available it blocks forever (`none`). -/
def Runtime.join (E : Type) (msgs : List (Except E Unit)) :
    Option (Except E Unit) :=
  match msgs with
  | res1 :: res2 :: _ =>
    some
      (match res1 with
       | .error e => .error e
       | .ok _ =>
         match res2 with
         | .error e => .error e
         | .ok _ => .ok ())
  | _ => none

/-- The queue invariant of spec section 3: every id in the in-flight table
was produced by `next_id`, i.e. (absent wraparound) is strictly below the
counter. -/
def QueueInv (q : Queue) : Prop :=
  ∀ kv ∈ q.in_flight_requests, kv.1 < q.id

/-! Helper lemmas about the association-list embedding of the hash map. -/

theorem mem_removeEntry {t : Table} {k : Nat} {kv : Nat × InFlightRequest}
    (h : kv ∈ removeEntry t k) : kv ∈ t := by
  induction t with
  | nil => simp [removeEntry] at h
  | cons hd tl ih =>
    obtain ⟨k', v⟩ := hd
    by_cases hk : k' = k
    · simp only [removeEntry, if_pos hk] at h
      exact List.mem_cons_of_mem _ h
    · simp only [removeEntry, if_neg hk] at h
      rcases List.mem_cons.mp h with h | h
      · exact h ▸ List.mem_cons_self _ _
      · exact List.mem_cons_of_mem _ (ih h)

theorem mem_insertEntry {t : Table} {k : Nat} {v : InFlightRequest}
    {kv : Nat × InFlightRequest} (h : kv ∈ insertEntry t k v) :
    kv = (k, v) ∨ kv ∈ t := by
  rcases List.mem_cons.mp h with h | h
  · exact Or.inl h
  · exact Or.inr (mem_removeEntry h)

theorem findEntry_eq_none {t : Table} {k : Nat}
    (h : ∀ kv ∈ t, kv.1 ≠ k) : findEntry t k = none := by
  induction t with
  | nil => rfl
  | cons hd tl ih =>
    obtain ⟨k', v⟩ := hd
    have hne : k' ≠ k := h (k', v) (List.mem_cons_self _ _)
    simp only [findEntry, if_neg hne]
    exact ih fun kv hkv => h kv (List.mem_cons_of_mem _ hkv)

theorem findEntry_removeEntry_ne {t : Table} {k k' : Nat} (hne : k' ≠ k) :
    findEntry (removeEntry t k) k' = findEntry t k' := by
  induction t with
  | nil => rfl
  | cons hd tl ih =>
    obtain ⟨a, v⟩ := hd
    by_cases hak : a = k
    · subst hak
      have h2 : ¬a = k' := fun h => hne h.symm
      simp [removeEntry, findEntry, h2]
    · simp only [removeEntry, if_neg hak, findEntry]
      by_cases hak' : a = k'
      · simp [hak']
      · simp [hak', ih]

theorem findEntry_removeEntry_self {t : Table} {k : Nat}
    (hnd : (t.map Prod.fst).Nodup) : findEntry (removeEntry t k) k = none := by
  induction t with
  | nil => rfl
  | cons hd tl ih =>
    obtain ⟨a, v⟩ := hd
    simp only [List.map_cons, List.nodup_cons] at hnd
    by_cases hak : a = k
    · subst hak
      have hr : removeEntry ((a, v) :: tl) a = tl := by simp [removeEntry]
      rw [hr]
      exact findEntry_eq_none fun kv hkv h =>
        hnd.1 (h ▸ List.mem_map_of_mem Prod.fst hkv)
    · simp only [removeEntry, if_neg hak, findEntry]
      exact ih hnd.2

/-! The sequence of ids produced by successive `next_id` calls. -/

theorem next_ids_fst (n : Nat) (q : Queue) (h : q.id + n ≤ u32Mod) :
    (next_ids n q).1 = List.range' q.id n := by
  induction n generalizing q with
  | zero => simp [next_ids]
  | succ m ih =>
    cases m with
    | zero => simp [next_ids, Queue.next_id, List.range']
    | succ l =>
      have h1 : (q.id + 1) % u32Mod = q.id + 1 := Nat.mod_eq_of_lt (by omega)
      have ht := ih { q with id := (q.id + 1) % u32Mod } (by simp only [h1]; omega)
      simp only [h1] at ht
      rw [List.range'_succ, ← ht]
      simp only [next_ids, Queue.next_id, h1]

/-! The claim theorems. -/

/-- C1: for every invocation of `Client::call(params, downgrade)`: if
`call_raw` returns `Err`, `call` returns a `TransportError`; if it returns a
`Message` that is not a `Response`, `call` returns `WrongMessageType`; if it
is a `Response` with `error = Some s` (even when `results` is also `Some`),
`call` returns `RemoteError s`; otherwise if `results = Some r`, `call`
returns `Ok (downgrade r)` when the projection accepts `r` and
`WrongResults` when `downgrade` returns `none`; otherwise (both fields
`None`) `call` returns `MissingResults`. -/
theorem C1_call_cases (P NP R RR : Type) (fmtErr : Error → String)
    (downgrade : R → Option RR) :
    (∀ e : Error,
        Client.call P NP R RR fmtErr downgrade (.error e)
          = .error (.TransportError (fmtErr e))) ∧
    (∀ (id : Nat) (p : P),
        Client.call P NP R RR fmtErr downgrade (.ok (.Request id p))
          = .error .WrongMessageType) ∧
    (∀ np : NP,
        Client.call P NP R RR fmtErr downgrade (.ok (.Notification np))
          = .error .WrongMessageType) ∧
    (∀ (id : Nat) (results : Option R) (s : String),
        Client.call P NP R RR fmtErr downgrade
            (.ok (.Response id results (some s)))
          = .error (.RemoteError s)) ∧
    (∀ (id : Nat) (r : R),
        Client.call P NP R RR fmtErr downgrade (.ok (.Response id (some r) none))
          = match downgrade r with
            | some rr => .ok rr
            | none => .error .WrongResults) ∧
    (∀ id : Nat,
        Client.call P NP R RR fmtErr downgrade (.ok (.Response id none none))
          = .error .MissingResults) := by
  refine ⟨fun e => rfl, fun id p => rfl, fun np => rfl,
    fun id results s => rfl, fun id r => ?_, fun id => rfl⟩
  simp only [Client.call]

/-- C1 witness: a `Response` carrying both `results` and `error` fails with
the remote error. -/
theorem C1_witness :
    Client.call Unit Unit Nat Nat (fun _ => "") (fun r => some (r + 1))
        (.ok (.Response 1 (some 4) (some "boom")))
      = .error (.RemoteError "boom") :=
  (C1_call_cases Unit Unit Nat Nat (fun _ => "") (fun r => some (r + 1))).2.2.2.1
    1 (some 4) "boom"

/-- C2: every successful `Client::call_raw(params)` performs its steps in
this order: the id is allocated from the `Queue` under the lock, then the
completion channel is registered in `in_flight_requests` under that same
id, and only after that registration is the `Request { id, params }` sent
on the outbound sink; no send event ever precedes the registration of the
id. -/
theorem C2_call_raw_order (P NP R : Type) (method : P → String)
    (freshChan : Nat) (q : Queue) (params : P) :
    (Client.call_raw P NP R method freshChan q params).events
      = [.allocId q.id, .register q.id, .send (.Request q.id params)] ∧
    findEntry
        (Client.call_raw P NP R method freshChan q params).queue.in_flight_requests
        q.id
      = some { method := method params, tx := freshChan } ∧
    (∀ (k : Nat) (m : Message P NP R),
      ((Client.call_raw P NP R method freshChan q params).events)[k]?
          = some (.send m) →
      ∃ j, j < k ∧
        ((Client.call_raw P NP R method freshChan q params).events)[j]?
          = some (.register q.id)) := by
  refine ⟨rfl, ?_, ?_⟩
  · simp [Client.call_raw, insertEntry, findEntry, Queue.next_id]
  · intro k m h
    match k with
    | 0 => simp [Client.call_raw] at h
    | 1 => simp [Client.call_raw] at h
    | 2 => exact ⟨1, by omega, rfl⟩
    | n + 3 => simp [Client.call_raw] at h

/-- C2 witness: on a fresh queue, the send event (at index 2) is preceded
by the registration of id 0. -/
theorem C2_witness :
    ∃ j, j < 2 ∧
      ((Client.call_raw Unit Unit Unit (fun _ => "m") 7 Queue.new ()).events)[j]?
        = some (.register 0) :=
  (C2_call_raw_order Unit Unit Unit (fun _ => "m") 7 Queue.new ()).2.2 2
    (.Request 0 ()) (by decide)

/-- C6: `Queue::next_id` returns the current counter value and leaves the
counter incremented by exactly one (wrapping per the u32 width), the table
untouched; hence n successive calls starting from counter value c (while
no wraparound occurs) return the n distinct values c, c+1, ..., c+n-1. -/
theorem C6_next_id (q : Queue) :
    q.next_id.1 = q.id ∧
    q.next_id.2.id = (q.id + 1) % u32Mod ∧
    q.next_id.2.in_flight_requests = q.in_flight_requests ∧
    (∀ n : Nat, q.id + n ≤ u32Mod →
      (next_ids n q).1 = List.range' q.id n ∧ ((next_ids n q).1).Nodup) := by
  refine ⟨rfl, rfl, rfl, fun n h => ?_⟩
  have hr := next_ids_fst n q h
  exact ⟨hr, hr ▸ List.nodup_range' q.id n 1 Nat.one_pos⟩

/-- C6 witness: three successive allocations on a fresh queue hand out the
distinct ids 0, 1, 2. -/
theorem C6_witness :
    (next_ids 3 Queue.new).1 = List.range' 0 3 ∧ ((next_ids 3 Queue.new).1).Nodup :=
  (C6_next_id Queue.new).2.2.2 3 (by norm_num [u32Mod, Queue.new])

/-- C9: for every `Notification` message, `handle_message` never returns a
value, neither `Ok` nor `Err`: a decoded `Notification` is fatal to the
dispatch worker (it hits the `unimplemented` arm), not a recoverable
error. -/
theorem C9_notification_fatal (P NP R : Type)
    (handler : Queue → P → Queue × Except Error R) (fmtErr : Error → String)
    (sinkAlive : Bool) (chanAlive : Nat → Bool) (q : Queue) (np : NP) :
    handle_message P NP R handler fmtErr sinkAlive chanAlive q (.Notification np)
      = { queue := q, events := [], outcome := .panicked "not implemented" } ∧
    (handle_message P NP R handler fmtErr sinkAlive chanAlive q
        (.Notification np)).outcome ≠ .ok ∧
    (∀ e : Error,
      (handle_message P NP R handler fmtErr sinkAlive chanAlive q
          (.Notification np)).outcome ≠ .err e) := by
  refine ⟨rfl, by simp [handle_message], fun e => by simp [handle_message]⟩

/-- C9 witness: a concrete `Notification` dispatch neither returns `Ok` nor
any `Err`. -/
theorem C9_witness :
    (handle_message Unit Unit Unit (fun q _ => (q, .ok ())) (fun _ => "") true
        (fun _ => true) Queue.new (.Notification ())).outcome ≠ .err .WrongResults :=
  (C9_notification_fatal Unit Unit Unit (fun q _ => (q, .ok ())) (fun _ => "")
      true (fun _ => true) Queue.new ()).2.2 .WrongResults

/-- C3: an inbound `Response` whose id is absent from the in-flight table
makes `handle_message` return `Ok(())` with nothing delivered and the
queue (every entry and the id counter) unchanged; when the id is present,
exactly that entry is removed and the `Response` (same id, results, error)
is delivered on that entry's completion channel. -/
theorem C3_response_dispatch (P NP R : Type)
    (handler : Queue → P → Queue × Except Error R) (fmtErr : Error → String)
    (sinkAlive : Bool) (chanAlive : Nat → Bool) (q : Queue) (id : Nat)
    (results : Option R) (error : Option String) :
    (findEntry q.in_flight_requests id = none →
      handle_message P NP R handler fmtErr sinkAlive chanAlive q
          (.Response id results error)
        = { queue := q, events := [], outcome := .ok }) ∧
    (∀ in_flight : InFlightRequest,
      findEntry q.in_flight_requests id = some in_flight →
      (handle_message P NP R handler fmtErr sinkAlive chanAlive q
          (.Response id results error)).queue.id = q.id ∧
      (handle_message P NP R handler fmtErr sinkAlive chanAlive q
          (.Response id results error)).queue.in_flight_requests
        = removeEntry q.in_flight_requests id ∧
      ((q.in_flight_requests.map Prod.fst).Nodup →
        findEntry
            (handle_message P NP R handler fmtErr sinkAlive chanAlive q
              (.Response id results error)).queue.in_flight_requests id
          = none) ∧
      (∀ k : Nat, k ≠ id →
        findEntry
            (handle_message P NP R handler fmtErr sinkAlive chanAlive q
              (.Response id results error)).queue.in_flight_requests k
          = findEntry q.in_flight_requests k) ∧
      (handle_message P NP R handler fmtErr sinkAlive chanAlive q
          (.Response id results error)).events
        = [.deliver in_flight.tx (.Response id results error)] ∧
      (chanAlive in_flight.tx = true →
        (handle_message P NP R handler fmtErr sinkAlive chanAlive q
            (.Response id results error)).outcome = .ok)) := by
  constructor
  · intro h
    simp [handle_message, h]
  · intro in_flight h
    refine ⟨?_, ?_, ?_, ?_, ?_, ?_⟩
    · simp [handle_message, h]
    · simp [handle_message, h]
    · intro hnd
      simp only [handle_message, h]
      exact findEntry_removeEntry_self hnd
    · intro k hk
      simp only [handle_message, h]
      exact findEntry_removeEntry_ne hk
    · simp [handle_message, h]
    · intro hc
      simp [handle_message, h, hc]

/-- C3 witness: with one in-flight entry under id 5 on channel 3, the
matching `Response` is delivered on channel 3, the entry is gone, and the
worker returns `Ok`. -/
theorem C3_witness :
    (handle_message Unit Unit Unit (fun q _ => (q, .ok ())) (fun _ => "") true
          (fun _ => true)
          { id := 6, in_flight_requests := [(5, { method := "m", tx := 3 })] }
          (.Response 5 none none)).events
        = [.deliver 3 (.Response 5 none none)] ∧
    findEntry
        (handle_message Unit Unit Unit (fun q _ => (q, .ok ())) (fun _ => "") true
          (fun _ => true)
          { id := 6, in_flight_requests := [(5, { method := "m", tx := 3 })] }
          (.Response 5 none none)).queue.in_flight_requests 5 = none ∧
    (handle_message Unit Unit Unit (fun q _ => (q, .ok ())) (fun _ => "") true
          (fun _ => true)
          { id := 6, in_flight_requests := [(5, { method := "m", tx := 3 })] }
          (.Response 5 none none)).outcome = .ok := by
  have h := (C3_response_dispatch Unit Unit Unit (fun q _ => (q, .ok ()))
      (fun _ => "") true (fun _ => true)
      { id := 6, in_flight_requests := [(5, { method := "m", tx := 3 })] }
      5 none none).2 { method := "m", tx := 3 } (by decide)
  exact ⟨h.2.2.2.2.1, h.2.2.1 (by decide), h.2.2.2.2.2 rfl⟩

/-- C4: dispatching an inbound `Request { id, params }` (with the outbound
sink alive) enqueues exactly one `Response` carrying the same id: with
`results = Some r` and `error = None` when the handler returns `Ok r`, and
with `results = None` and `error = Some ("internal error: " ++ the
formatted error)` when the handler returns `Err e`; in both cases
`handle_message` returns `Ok(())`. -/
theorem C4_request_response (P NP R : Type)
    (handler : Queue → P → Queue × Except Error R) (fmtErr : Error → String)
    (chanAlive : Nat → Bool) (q : Queue) (id : Nat) (params : P) :
    (handle_message P NP R handler fmtErr true chanAlive q
        (.Request id params)).events
      = [.sinkSend
          (match (handler q params).2 with
           | .ok results => .Response id (some results) none
           | .error e =>
               .Response id none (some ("internal error: " ++ fmtErr e)))] ∧
    (∀ e : Error, (handler q params).2 = .error e →
      (handle_message P NP R handler fmtErr true chanAlive q
          (.Request id params)).events
        = [.sinkSend (.Response id none (some ("internal error: " ++ fmtErr e)))]) ∧
    (handle_message P NP R handler fmtErr true chanAlive q
        (.Request id params)).outcome = .ok := by
  refine ⟨rfl, fun e he => ?_, rfl⟩
  simp [handle_message, he]

/-- C4 witness: a handler failing with an error whose formatting is
"custom" produces `Response { id 9, results: None, error: Some "internal
error: custom" }` on the sink and the worker returns `Ok`. -/
theorem C4_witness :
    (handle_message Unit Unit Unit (fun q _ => (q, .error .WrongResults))
          (fun _ => "custom") true (fun _ => true) Queue.new
          (.Request 9 ())).events
        = [.sinkSend (.Response 9 none (some "internal error: custom"))] ∧
    (handle_message Unit Unit Unit (fun q _ => (q, .error .WrongResults))
          (fun _ => "custom") true (fun _ => true) Queue.new
          (.Request 9 ())).outcome
        = .ok := by
  have h := C4_request_response Unit Unit Unit (fun q _ => (q, .error .WrongResults))
      (fun _ => "custom") (fun _ => true) Queue.new 9 ()
  exact ⟨h.2.1 .WrongResults rfl, h.2.2⟩

/-- C5 counterexample: with the caller's receiving end of the completion
channel gone, delivering the matching `Response` makes the dispatch worker
panic on the `unwrap` of the failed send; `handle_message` does not return
`Ok(())` as the claim states. -/
theorem C5_counterexample :
    (handle_message Unit Unit Unit (fun q _ => (q, .ok ())) (fun _ => "") true
          (fun _ => false)
          { id := 1, in_flight_requests := [(0, { method := "m", tx := 0 })] }
          (.Response 0 none none)).outcome ≠ .ok ∧
    (handle_message Unit Unit Unit (fun q _ => (q, .ok ())) (fun _ => "") true
          (fun _ => false)
          { id := 1, in_flight_requests := [(0, { method := "m", tx := 0 })] }
          (.Response 0 none none)).outcome
      = .panicked "completion channel send failed" := by
  decide

/-- C5 amended: if delivering a `Response` on the matching in-flight
entry's completion channel fails (the caller's receiving end has been
dropped), the `unwrap` on the failed send panics the dispatch worker:
`handle_message` does not return `Ok(())` (it returns nothing at all). The
entry is still removed and the delivery was attempted before the panic. -/
theorem C5_amended (P NP R : Type)
    (handler : Queue → P → Queue × Except Error R) (fmtErr : Error → String)
    (sinkAlive : Bool) (chanAlive : Nat → Bool) (q : Queue) (id : Nat)
    (results : Option R) (error : Option String) (in_flight : InFlightRequest)
    (hfind : findEntry q.in_flight_requests id = some in_flight)
    (hdead : chanAlive in_flight.tx = false) :
    (handle_message P NP R handler fmtErr sinkAlive chanAlive q
        (.Response id results error)).outcome
      = .panicked "completion channel send failed" ∧
    (handle_message P NP R handler fmtErr sinkAlive chanAlive q
        (.Response id results error)).outcome ≠ .ok ∧
    (handle_message P NP R handler fmtErr sinkAlive chanAlive q
        (.Response id results error)).queue.in_flight_requests
      = removeEntry q.in_flight_requests id ∧
    (handle_message P NP R handler fmtErr sinkAlive chanAlive q
        (.Response id results error)).events
      = [.deliver in_flight.tx (.Response id results error)] := by
  refine ⟨?_, ?_, ?_, ?_⟩ <;> simp [handle_message, hfind, hdead]

/-- C5 amended witness: the concrete dead-channel delivery panics the
worker and leaves the table empty. -/
theorem C5_amended_witness :
    (handle_message Unit Unit Unit (fun q _ => (q, .ok ())) (fun _ => "") true
          (fun _ => false)
          { id := 1, in_flight_requests := [(0, { method := "m", tx := 0 })] }
          (.Response 0 none none)).outcome
        = .panicked "completion channel send failed" ∧
    (handle_message Unit Unit Unit (fun q _ => (q, .ok ())) (fun _ => "") true
          (fun _ => false)
          { id := 1, in_flight_requests := [(0, { method := "m", tx := 0 })] }
          (.Response 0 none none)).queue.in_flight_requests = [] := by
  have h := C5_amended Unit Unit Unit (fun q _ => (q, .ok ())) (fun _ => "") true
      (fun _ => false)
      { id := 1, in_flight_requests := [(0, { method := "m", tx := 0 })] }
      0 none none { method := "m", tx := 0 } (by decide) rfl
  exact ⟨h.1, h.2.2.1⟩

/-- C7: the queue invariant — absent u32 wraparound, every key in
`in_flight_requests` is strictly below the counter (it was produced by
`next_id`) — holds of `Queue::new` and is preserved by `call_raw`'s
allocate-then-insert and by `handle_message`'s removal on a `Response`;
moreover under the invariant `call_raw` never inserts over a key that is
already present. -/
theorem C7_queue_invariant :
    QueueInv Queue.new ∧
    (∀ (P NP R : Type) (method : P → String) (freshChan : Nat) (q : Queue)
        (params : P),
      QueueInv q → q.id + 1 < u32Mod →
        QueueInv (Client.call_raw P NP R method freshChan q params).queue ∧
        findEntry q.in_flight_requests q.id = none) ∧
    (∀ (P NP R : Type) (handler : Queue → P → Queue × Except Error R)
        (fmtErr : Error → String) (sinkAlive : Bool) (chanAlive : Nat → Bool)
        (q : Queue) (id : Nat) (results : Option R) (error : Option String),
      QueueInv q →
        QueueInv (handle_message P NP R handler fmtErr sinkAlive chanAlive q
            (.Response id results error)).queue) := by
  refine ⟨?_, ?_, ?_⟩
  · intro kv h
    simp [Queue.new] at h
  · intro P NP R method freshChan q params hinv hlt
    constructor
    · intro kv hkv
      simp only [Client.call_raw, Queue.next_id, Nat.mod_eq_of_lt hlt] at hkv ⊢
      rcases mem_insertEntry hkv with h | h
      · subst h
        omega
      · exact Nat.lt_succ_of_lt (hinv kv h)
    · exact findEntry_eq_none fun kv hkv h => Nat.lt_irrefl _ (h ▸ hinv kv hkv)
  · intro P NP R handler fmtErr sinkAlive chanAlive q id results error hinv
    cases hfind : findEntry q.in_flight_requests id with
    | none =>
      simpa [handle_message, hfind] using hinv
    | some in_flight =>
      intro kv hkv
      simp only [handle_message, hfind] at hkv ⊢
      exact hinv kv (mem_removeEntry hkv)

/-- C7 witness: a `call_raw` on a fresh queue preserves the invariant and
inserts under the never-before-used id 0. -/
theorem C7_witness :
    QueueInv (Client.call_raw Unit Unit Unit (fun _ => "m") 7 Queue.new ()).queue ∧
    findEntry Queue.new.in_flight_requests Queue.new.id = none :=
  C7_queue_invariant.2.1 Unit Unit Unit (fun _ => "m") 7 Queue.new ()
    (fun kv h => by simp [Queue.new] at h) (by norm_num [u32Mod, Queue.new])

/-- C8: `Runtime::join` receives exactly two completion results before
returning (with fewer available it blocks); it does not return early after
the first result even when that result is a failure; it returns `Ok(())`
iff both received results are `Ok`, and otherwise the first-received
`Err`. -/
theorem C8_join (E : Type) (res1 res2 : Except E Unit)
    (rest : List (Except E Unit)) :
    Runtime.join E ([] : List (Except E Unit)) = none ∧
    Runtime.join E [res1] = none ∧
    Runtime.join E (res1 :: res2 :: rest)
      = some
          (match res1 with
           | .error e => .error e
           | .ok _ => res2) ∧
    (Runtime.join E (res1 :: res2 :: rest) = some (.ok ())
      ↔ res1 = .ok () ∧ res2 = .ok ()) ∧
    (∀ e : E, res1 = .error e →
      Runtime.join E (res1 :: res2 :: rest) = some (.error e)) := by
  cases res1 <;> cases res2 <;>
    simp [Runtime.join]

/-- C8 witness: with the first result a failure and the second a success,
`join` surfaces the first failure. -/
theorem C8_witness :
    Runtime.join Nat [.error 3, .ok ()] = some (.error 3) :=
  (C8_join Nat (.error 3) (.ok ()) []).2.2.2.2 3 rfl

/-- C10: dispatching an inbound `Request` does not itself touch the
in-flight table or the id counter: the queue after `handle_message` is
exactly the queue the handler produced (all change comes from nested calls
the handler issues through its `Client`), and with a handler that issues no
calls the queue is exactly unchanged. -/
theorem C10_request_frame (P NP R : Type)
    (handler : Queue → P → Queue × Except Error R) (fmtErr : Error → String)
    (sinkAlive : Bool) (chanAlive : Nat → Bool) (q : Queue) (id : Nat)
    (params : P) :
    (handle_message P NP R handler fmtErr sinkAlive chanAlive q
        (.Request id params)).queue = (handler q params).1 ∧
    (∀ f : P → Except Error R,
      (handle_message P NP R (fun q p => (q, f p)) fmtErr sinkAlive chanAlive q
          (.Request id params)).queue = q) :=
  ⟨rfl, fun _ => rfl⟩

/-- C10 witness: a call-free handler leaves the fresh queue exactly
unchanged under a `Request` dispatch. -/
theorem C10_witness :
    (handle_message Unit Unit Unit (fun q p => (q, .ok p)) (fun _ => "") true
        (fun _ => true) Queue.new (.Request 0 ())).queue = Queue.new :=
  (C10_request_frame Unit Unit Unit (fun q p => (q, .ok p)) (fun _ => "") true
      (fun _ => true) Queue.new 0 ()).2 (fun p => .ok p)

end Lavish
